import Mathlib

/-!
Shallow embedding of the dataset-generation layer of the playground
repository (src/src/dataset.ts) and proofs of the specified properties.

JavaScript numbers are modelled as rationals (ℚ).  The ambient random
source `Math.random()`, which returns a number in `[0, 1)`, is modelled
as an explicit stream `rnd : ℕ → ℚ`; each loop iteration of the source
consumes a fixed number of draws, and the embedding addresses them by
index.  Transcendental library functions (`Math.sin`, `Math.cos`,
`Math.sqrt`, `Math.PI`) and the normal sampler `normalRandom` are passed
as explicit function parameters: the properties proved here do not
depend on their values, only on where the source applies them.
-/

namespace Playground

/-- A two dimensional example: x and y coordinates with the label
(the `Example2D` type of src/src/dataset.ts). -/
structure Example2D where
  x : ℚ
  y : ℚ
  label : ℚ
  deriving DecidableEq, Repr, Inhabited

/-- Embedding of `randUniform(a, b)` from src/src/dataset.ts:
`Math.random() * (b - a) + a`, with the draw `r` of `Math.random()`
made explicit. -/
def randUniform (a b r : ℚ) : ℚ :=
  r * (b - a) + a

/-- Modelled from the spec: `d3.scale.linear().domain([d0, d1]).range([r0, r1])`
of the d3 library (not part of src/), the affine map sending the domain
interval onto the range interval, extrapolating outside the domain. -/
def linearScale (d0 d1 r0 r1 v : ℚ) : ℚ :=
  r0 + (v - d0) * (r1 - r0) / (d1 - d0)

/-- Modelled from the spec: the same d3 linear scale with `.clamp(true)`,
which clamps the interpolation parameter to `[0, 1]` so the output stays
within the range interval. -/
def linearScaleClamp (d0 d1 r0 r1 v : ℚ) : ℚ :=
  let t := (v - d0) / (d1 - d0)
  let tc := max 0 (min 1 t)
  r0 + tc * (r1 - r0)

/-- Embedding of `dist(a, b)` from src/src/dataset.ts:
`Math.sqrt(dx * dx + dy * dy)`, with `Math.sqrt` abstracted as the
function parameter `sq`. -/
def dist (sq : ℚ → ℚ) (px py qx qy : ℚ) : ℚ :=
  sq ((px - qx) * (px - qx) + (py - qy) * (py - qy))

/-- Number of iterations of the JavaScript loop
`for (let i = 0; i < numSamples / 2; i++)`, where `numSamples / 2` is
real division: the naturals `i` with `(i : ℚ) < numSamples / 2`, that is
`⌈numSamples / 2⌉` (see `halfCount_spec`). -/
def halfCount (n : ℕ) : ℕ :=
  (n + 1) / 2

/-- The quantity `s = v1 * v1 + v2 * v2` of `normalRandom` in
src/src/dataset.ts. -/
def normalRandomS (v1 v2 : ℚ) : ℚ :=
  v1 * v1 + v2 * v2

/-- The acceptance test of the rejection loop of `normalRandom`:
the source repeats `do {...} while (s > 1)`, so a drawn pair is accepted
exactly when its `s` is not greater than `1`. -/
def normalRandomAccept (v1 v2 : ℚ) : Bool :=
  if normalRandomS v1 v2 > 1 then false else true

/-- The map `r ↦ 2 * r - 1` that `normalRandom` applies to each
`Math.random()` draw to get `v1` and `v2`. -/
def mathRandomToV (r : ℚ) : ℚ :=
  2 * r - 1

/-- One step of the accumulator update in `regressGaussian`'s `getLabel`
(and in `regressCsvDummy2`): the new candidate replaces the current label
only under strict greater-than comparison of absolute values
(`if (Math.abs(newLabel) > Math.abs(label)) label = newLabel`). -/
def selectMaxAbs (label newLabel : ℚ) : ℚ :=
  if |newLabel| > |label| then newLabel else label

/-- Embedding of `classifyTwoGaussData` from src/src/dataset.ts.
`normalRandom(mean, variance)` is abstracted as `nrm idx mean variance`
where `idx` numbers the calls in evaluation order. -/
def classifyTwoGaussData (numSamples : ℕ) (noise : ℚ)
    (nrm : ℕ → ℚ → ℚ → ℚ) : List Example2D :=
  let variance := linearScale 0 (1/2) (1/2) 4 noise
  let k := halfCount numSamples
  let pos := (List.range k).map (fun i =>
    { x := nrm (2*i) 2 variance, y := nrm (2*i+1) 2 variance,
      label := 1 })
  let neg := (List.range k).map (fun i =>
    { x := nrm (2*k + 2*i) (-2) variance, y := nrm (2*k + 2*i+1) (-2) variance,
      label := -1 })
  pos ++ neg

/-- Embedding of `regressPlane` from src/src/dataset.ts: `radius = 6`,
label scale `d3.scale.linear().domain([-10, 10]).range([-1, 1])` (not
clamped), label computed from the noisy coordinates.  Each iteration
consumes four `Math.random()` draws. -/
def regressPlane (numSamples : ℕ) (noise : ℚ) (rnd : ℕ → ℚ) :
    List Example2D :=
  (List.range numSamples).map (fun i =>
    let x := randUniform (-6) 6 (rnd (4*i))
    let y := randUniform (-6) 6 (rnd (4*i+1))
    let noiseX := randUniform (-6) 6 (rnd (4*i+2)) * noise
    let noiseY := randUniform (-6) 6 (rnd (4*i+3)) * noise
    { x := x, y := y,
      label := linearScale (-10) 10 (-1) 1 ((x + noiseX) + (y + noiseY)) })

/-- The six fixed Gaussian bump centers `[cx, cy, sign]` of
`regressGaussian` in src/src/dataset.ts. -/
def gaussians : List (ℚ × ℚ × ℚ) :=
  [(-4, 5/2, 1), (0, 5/2, -1), (4, 5/2, 1),
   (-4, -5/2, -1), (0, -5/2, 1), (4, -5/2, -1)]

/-- The clamped label scale of `regressGaussian`:
`d3.scale.linear().domain([0, 2]).range([1, 0]).clamp(true)`. -/
def regressGaussLabelScale (v : ℚ) : ℚ :=
  linearScaleClamp 0 2 1 0 v

/-- The six bump values `sign * labelScale(dist((x,y), center))` that
`regressGaussian`'s `getLabel` computes at a point, in center order. -/
def gaussBumps (sq : ℚ → ℚ) (x y : ℚ) : List ℚ :=
  gaussians.map (fun c => c.2.2 * regressGaussLabelScale (dist sq x y c.1 c.2.1))

/-- Embedding of `getLabel` in `regressGaussian`: fold the strict-max-abs
update over the bumps, starting from `label = 0` (the source's `forEach`
over `gaussians` with the mutable `label` accumulator). -/
def regressGaussGetLabel (sq : ℚ → ℚ) (x y : ℚ) : ℚ :=
  (gaussBumps sq x y).foldl selectMaxAbs 0

/-- Embedding of `regressGaussian` from src/src/dataset.ts: `radius = 6`,
label computed by `getLabel` at the noisy coordinates.  Each iteration
consumes four `Math.random()` draws; `Math.sqrt` is the parameter `sq`. -/
def regressGaussian (numSamples : ℕ) (noise : ℚ) (sq : ℚ → ℚ)
    (rnd : ℕ → ℚ) : List Example2D :=
  (List.range numSamples).map (fun i =>
    let x := randUniform (-6) 6 (rnd (4*i))
    let y := randUniform (-6) 6 (rnd (4*i+1))
    let noiseX := randUniform (-6) 6 (rnd (4*i+2)) * noise
    let noiseY := randUniform (-6) 6 (rnd (4*i+3)) * noise
    { x := x, y := y,
      label := regressGaussGetLabel sq (x + noiseX) (y + noiseY) })

/-- Embedding of `classifySpiralData` from src/src/dataset.ts:
`n = numSamples / 2` (real division), two interleaved arms of
`⌈numSamples / 2⌉` points each; `Math.sin`, `Math.cos` and `Math.PI` are
the parameters `sinF`, `cosF` and `piQ`.  Each iteration consumes two
`Math.random()` draws. -/
def classifySpiralData (numSamples : ℕ) (noise : ℚ)
    (sinF cosF : ℚ → ℚ) (piQ : ℚ) (rnd : ℕ → ℚ) : List Example2D :=
  let n : ℚ := (numSamples : ℚ) / 2
  let k := halfCount numSamples
  let arm : ℕ → ℚ → ℚ → List Example2D := fun base deltaT lab =>
    (List.range k).map (fun (i : ℕ) =>
      let r := (i : ℚ) / n * 5
      let t := 7/4 * (i : ℚ) / n * 2 * piQ + deltaT
      { x := r * sinF t + randUniform (-1) 1 (rnd (base + 2*i)) * noise,
        y := r * cosF t + randUniform (-1) 1 (rnd (base + 2*i+1)) * noise,
        label := lab })
  arm 0 0 1 ++ arm (2*k) piQ (-1)

/-- Embedding of `getCircleLabel` in `classifyCircleData`:
`dist(p, center) < radius * 0.5 ? 1 : -1` with `radius = 5`. -/
def getCircleLabel (sq : ℚ → ℚ) (px py cx cy : ℚ) : ℚ :=
  if dist sq px py cx cy < 5 * (1/2) then 1 else -1

/-- Embedding of `classifyCircleData` from src/src/dataset.ts: `radius = 5`,
`⌈numSamples / 2⌉` points drawn inside radius `2.5` then the same number
drawn in the annulus `[3.5, 5]`; the label is computed from the noisy
coordinates.  Each iteration consumes four `Math.random()` draws. -/
def classifyCircleData (numSamples : ℕ) (noise : ℚ)
    (sinF cosF : ℚ → ℚ) (piQ : ℚ) (sq : ℚ → ℚ) (rnd : ℕ → ℚ) :
    List Example2D :=
  let k := halfCount numSamples
  let inside := (List.range k).map (fun i =>
    let r := randUniform 0 (5 * (1/2)) (rnd (4*i))
    let angle := randUniform 0 (2 * piQ) (rnd (4*i+1))
    let x := r * sinF angle
    let y := r * cosF angle
    let noiseX := randUniform (-5) 5 (rnd (4*i+2)) * noise
    let noiseY := randUniform (-5) 5 (rnd (4*i+3)) * noise
    { x := x, y := y, label := getCircleLabel sq (x + noiseX) (y + noiseY) 0 0 })
  let outside := (List.range k).map (fun i =>
    let r := randUniform (5 * (7/10)) 5 (rnd (4*k + 4*i))
    let angle := randUniform 0 (2 * piQ) (rnd (4*k + 4*i+1))
    let x := r * sinF angle
    let y := r * cosF angle
    let noiseX := randUniform (-5) 5 (rnd (4*k + 4*i+2)) * noise
    let noiseY := randUniform (-5) 5 (rnd (4*k + 4*i+3)) * noise
    { x := x, y := y, label := getCircleLabel sq (x + noiseX) (y + noiseY) 0 0 })
  inside ++ outside

/-- The padding step of `classifyXORData`:
`x += x > 0 ? padding : -padding` with `padding = 0.3`. -/
def addPadding (v : ℚ) : ℚ :=
  if v > 0 then v + 3/10 else v - 3/10

/-- Embedding of `getXORLabel` in `classifyXORData`:
`p.x * p.y >= 0 ? 1 : -1`. -/
def getXORLabel (px py : ℚ) : ℚ :=
  if px * py ≥ 0 then 1 else -1

/-- Embedding of `classifyXORData` from src/src/dataset.ts: uniform draws
in `[-5, 5]`, padded away from the axes, label computed at the noisy
coordinates while the stored coordinates are the padded noise-free ones.
Each iteration consumes four `Math.random()` draws. -/
def classifyXORData (numSamples : ℕ) (noise : ℚ) (rnd : ℕ → ℚ) :
    List Example2D :=
  (List.range numSamples).map (fun i =>
    let x := addPadding (randUniform (-5) 5 (rnd (4*i)))
    let y := addPadding (randUniform (-5) 5 (rnd (4*i+1)))
    let noiseX := randUniform (-5) 5 (rnd (4*i+2)) * noise
    let noiseY := randUniform (-5) 5 (rnd (4*i+3)) * noise
    { x := x, y := y, label := getXORLabel (x + noiseX) (y + noiseY) })

/-- Embedding of `classifyCsvDummy1` from src/src/dataset.ts: two clusters
of 80 points each around `(2.5, 2.5)` (label 1) and `(-2.5, -2.5)`
(label -1), sampled by `normalRandom(c, 0.4 + noise)`; `numSamples` is
ignored. -/
def classifyCsvDummy1 (numSamples : ℕ) (noise : ℚ)
    (nrm : ℕ → ℚ → ℚ → ℚ) : List Example2D :=
  let add : ℕ → ℚ → ℚ → ℚ → List Example2D := fun base cx cy lab =>
    (List.range 80).map (fun i =>
      { x := nrm (base + 2*i) cx (2/5 + noise),
        y := nrm (base + 2*i+1) cy (2/5 + noise), label := lab })
  add 0 (5/2) (5/2) 1 ++ add 160 (-5/2) (-5/2) (-1)

/-- Embedding of `classifyCsvDummy2` from src/src/dataset.ts: 160 points
on two concentric rings (inner labelled 1, outer -1), with jitter added
after the label is fixed; `numSamples` is ignored.  Each iteration
consumes five `Math.random()` draws (the ternary evaluates only the
chosen branch's draw). -/
def classifyCsvDummy2 (numSamples : ℕ) (noise : ℚ)
    (sinF cosF : ℚ → ℚ) (piQ : ℚ) (rnd : ℕ → ℚ) : List Example2D :=
  (List.range 160).map (fun i =>
    let r := if rnd (5*i) < 1/2
      then 1 + 1/5 * randUniform (-1) 1 (rnd (5*i+1))
      else 3 + 3/10 * randUniform (-1) 1 (rnd (5*i+1))
    let t := randUniform 0 (piQ * 2) (rnd (5*i+2))
    let x := r * cosF t
    let y := r * sinF t
    let lab : ℚ := if r < 2 then 1 else -1
    { x := x + noise * randUniform (-1) 1 (rnd (5*i+3)),
      y := y + noise * randUniform (-1) 1 (rnd (5*i+4)), label := lab })

/-- Embedding of `regressCsvDummy1` from src/src/dataset.ts: 200 points,
label `labelScale((x + nx) - (y + ny))` with the unclamped scale
`domain([-6, 6]).range([-1, 1])`; `numSamples` is ignored. -/
def regressCsvDummy1 (numSamples : ℕ) (noise : ℚ) (rnd : ℕ → ℚ) :
    List Example2D :=
  (List.range 200).map (fun i =>
    let x := randUniform (-11/2) (11/2) (rnd (4*i))
    let y := randUniform (-11/2) (11/2) (rnd (4*i+1))
    let nx := noise * randUniform (-1) 1 (rnd (4*i+2))
    let ny := noise * randUniform (-1) 1 (rnd (4*i+3))
    { x := x, y := y,
      label := linearScale (-6) 6 (-1) 1 ((x + nx) - (y + ny)) })

/-- The two Gaussian hill centers `{x, y, s}` of `regressCsvDummy2`. -/
def regressCsvDummy2Centers : List (ℚ × ℚ × ℚ) :=
  [(-5/2, 2, 1), (5/2, -2, -1)]

/-- Embedding of `regressCsvDummy2` from src/src/dataset.ts: 200 points,
label the strict-max-abs of the two clamped radial bumps
(`domain([0, 4]).range([1, 0]).clamp(true)`), computed at the jittered
coordinates; `numSamples` is ignored. -/
def regressCsvDummy2 (numSamples : ℕ) (noise : ℚ) (sq : ℚ → ℚ)
    (rnd : ℕ → ℚ) : List Example2D :=
  (List.range 200).map (fun i =>
    let x := randUniform (-6) 6 (rnd (4*i)) + noise * randUniform (-1) 1 (rnd (4*i+2))
    let y := randUniform (-6) 6 (rnd (4*i+1)) + noise * randUniform (-1) 1 (rnd (4*i+3))
    let best := (regressCsvDummy2Centers.map (fun c =>
      c.2.2 * linearScaleClamp 0 4 1 0 (dist sq x y c.1 c.2.1))).foldl selectMaxAbs 0
    { x := x, y := y, label := best })

/-- JavaScript `Math.floor` composed with the cast to ℕ, for the
nonnegative arguments `Math.random() * counter` of `shuffle`. -/
def jsFloorNat (q : ℚ) : ℕ :=
  ⌊q⌋.toNat

/-- The loop of `shuffle` from src/src/dataset.ts, by recursion on
`counter`: pick `index = Math.floor(Math.random() * counter)`, decrement
`counter`, swap the elements at `counter` and `index`.  The draw of
iteration with incoming counter `c + 1` is `rnd c`. -/
def shuffleGo {α : Type} [Inhabited α] (rnd : ℕ → ℚ) :
    ℕ → List α → List α
  | 0, a => a
  | c+1, a =>
    shuffleGo rnd c
      ((a.set c (a.getD (jsFloorNat (rnd c * ((c : ℚ) + 1))) default)).set
        (jsFloorNat (rnd c * ((c : ℚ) + 1))) (a.getD c default))

/-- Embedding of `shuffle` from src/src/dataset.ts (Fisher-Yates,
counter starting at the array's length).  The source mutates in place;
the embedding returns the final array. -/
def shuffle {α : Type} [Inhabited α] (rnd : ℕ → ℚ) (array : List α) :
    List α :=
  shuffleGo rnd array.length array

/-- Splitting a character list at every occurrence of a separator
character; always returns at least one (possibly empty) group. -/
def splitOnChar (sep : Char) : List Char → List (List Char)
  | [] => [[]]
  | c :: rest =>
    if c = sep then [] :: splitOnChar sep rest
    else
      match splitOnChar sep rest with
      | [] => [[c]]
      | g :: gs => (c :: g) :: gs

/-- Longest digit prefix of a character list: accumulated value, number
of digits consumed, and the remaining characters. -/
def parseDigits : List Char → ℕ → ℕ → ℕ × ℕ × List Char
  | [], acc, cnt => (acc, cnt, [])
  | c :: rest, acc, cnt =>
    if c.isDigit then parseDigits rest (10 * acc + (c.toNat - 48)) (cnt + 1)
    else (acc, cnt, c :: rest)

/-- Scaling a rational by a signed power of ten (the exponent part of a
JavaScript float literal). -/
def scaleByPowTen (m : ℚ) (e : ℤ) : ℚ :=
  if e ≥ 0 then m * (10 : ℚ) ^ e.toNat else m / (10 : ℚ) ^ (-e).toNat

/-- Modelled from the spec: JavaScript's `parseFloat` (a runtime builtin,
not part of src/), restricted to finite decimal literals: skip leading
whitespace, read an optional sign, digits with an optional fractional
part and an optional exponent, ignore any trailing characters; `none`
stands for `NaN` (no leading numeric prefix at all). -/
def jsParseFloat (s : List Char) : Option ℚ :=
  let cs := s.dropWhile (fun c => c = ' ' ∨ c = '\t' ∨ c = '\n' ∨ c = '\r')
  let sgn : ℚ × List Char :=
    match cs with
    | '-' :: rest => (-1, rest)
    | '+' :: rest => (1, rest)
    | _ => (1, cs)
  let ipart := parseDigits sgn.2 0 0
  let fpart : ℕ × ℕ × List Char :=
    match ipart.2.2 with
    | '.' :: rest => parseDigits rest 0 0
    | _ => (0, 0, ipart.2.2)
  if ipart.2.1 = 0 ∧ fpart.2.1 = 0 then none
  else
    let mant : ℚ := (ipart.1 : ℚ) + (fpart.1 : ℚ) / (10 : ℚ) ^ fpart.2.1
    let ex : ℤ :=
      match fpart.2.2 with
      | 'e' :: rest | 'E' :: rest =>
        let esgn : ℤ × List Char :=
          match rest with
          | '-' :: r => (-1, r)
          | '+' :: r => (1, r)
          | _ => (1, rest)
        let epart := parseDigits esgn.2 0 0
        if epart.2.1 = 0 then 0 else esgn.1 * epart.1
      | _ => 0
    some (scaleByPowTen (sgn.1 * mant) ex)

/-- A parsed CSV record: header column names paired with the row's field
texts, in column order. -/
abbrev CsvRow := List (List Char × List Char)

/-- Modelled from the spec: `d3.csv.parse` of the d3 library (not part
of src/) on the comma-separated fragment of the CSV grammar (no quoted
fields): the first line is the header, each further line becomes a
record keyed by column name; a field beyond the row's width is absent
from the record (JavaScript `undefined`), and a final newline terminates
the last row rather than opening an empty one. -/
def d3CsvParse (text : String) : List CsvRow :=
  let ls := splitOnChar '\n' text.toList
  let ls := if ls.getLast? = some [] then ls.dropLast else ls
  match ls with
  | [] => []
  | header :: body =>
    let cols := splitOnChar ',' header
    body.map (fun line => cols.zip (splitOnChar ',' line))

/-- The structural parse step of `parseCsvTextToExamples` as guarded by
its `try`: an `error` value stands for a thrown exception.  The parse
model itself is total, so the top-level wrapper always passes `ok`. -/
def d3CsvParseE (text : String) : Except String (List CsvRow) :=
  Except.ok (d3CsvParse text)

/-- The coerced `x` field of a row: `row.x != null ? parseFloat(String(row.x)) : NaN`,
with `none` standing for `NaN`. -/
def csvX (row : CsvRow) : Option ℚ :=
  (List.lookup "x".toList row).bind jsParseFloat

/-- The coerced `y` field of a row. -/
def csvY (row : CsvRow) : Option ℚ :=
  (List.lookup "y".toList row).bind jsParseFloat

/-- The raw value field of a row: `row.values != null ? row.values : row.value`
(the `values` column is tried before `value`). -/
def csvValueField (row : CsvRow) : Option (List Char) :=
  match List.lookup "values".toList row with
  | some v => some v
  | none => List.lookup "value".toList row

/-- The coerced value field of a row. -/
def csvV (row : CsvRow) : Option ℚ :=
  (csvValueField row).bind jsParseFloat

/-- The body of the `rows.forEach` loop of `parseCsvTextToExamples`:
skip the row (`none`) when `x`, `y` or the value field is missing or
fails numeric coercion, otherwise build the example, the label being the
raw value for regression and the `≤ 0` threshold into `{-1, 1}` for
classification. -/
def rowToExample (isRegression : Bool) (row : CsvRow) : Option Example2D :=
  match csvX row, csvY row, csvV row with
  | some a, some b, some v =>
    some { x := a, y := b,
           label := if isRegression then v else (if v ≤ 0 then -1 else 1) }
  | _, _, _ => none

/-- The `rows.forEach` loop of `parseCsvTextToExamples`: fold over the
rows pushing each accepted example onto `out`. -/
def processRows (isRegression : Bool) (rows : List CsvRow) : List Example2D :=
  rows.foldl (fun out row =>
    match rowToExample isRegression row with
    | some e => out ++ [e]
    | none => out) []

/-- The `try`/`catch` of `parseCsvTextToExamples`: a structural parse
failure is converted into the empty collection (the source also logs a
diagnostic, a side effect outside the value model). -/
def parseCsvCaught (pr : Except String (List CsvRow))
    (isRegression : Bool) : List Example2D :=
  match pr with
  | Except.ok rows => processRows isRegression rows
  | Except.error _ => []

/-- Embedding of `parseCsvTextToExamples` from src/src/dataset.ts. -/
def parseCsvTextToExamples (csvText : String) (isRegression : Bool) :
    List Example2D :=
  parseCsvCaught (d3CsvParseE csvText) isRegression

/-- The end-to-end CSV example text of the spec. -/
def csvExampleText : String :=
  "x,y,values\n1,2,0.5\n3,4,-0.2\nbad,4,1\n"

/-- The records `d3CsvParse` produces from `csvExampleText`. -/
def csvExampleRows : List CsvRow :=
  [[("x".toList, "1".toList), ("y".toList, "2".toList),
    ("values".toList, "0.5".toList)],
   [("x".toList, "3".toList), ("y".toList, "4".toList),
    ("values".toList, "-0.2".toList)],
   [("x".toList, "bad".toList), ("y".toList, "4".toList),
    ("values".toList, "1".toList)]]

/-- A heap of array objects and point objects, for the aliasing behavior
of `generatorFromExamples`: an array object is a list of point
addresses (JavaScript arrays hold references), and `Array.slice()`
copies the address list into a fresh array object without copying the
points. -/
structure Store where
  arrays : List (List ℕ)
  points : List Example2D
  deriving DecidableEq, Repr

/-- The address list of the array object at address `a`. -/
def readArray (s : Store) (a : ℕ) : List ℕ :=
  s.arrays.getD a []

/-- The point object at address `r`. -/
def readPoint (s : Store) (r : ℕ) : Example2D :=
  s.points.getD r default

/-- The sequence of point values observed through the array at `a`. -/
def viewArray (s : Store) (a : ℕ) : List Example2D :=
  (readArray s a).map (readPoint s)

/-- Allocation of a fresh array object holding the given addresses. -/
def allocArray (s : Store) (refs : List ℕ) : Store × ℕ :=
  ({ s with arrays := s.arrays ++ [refs] }, s.arrays.length)

/-- Embedding of one invocation of the generator returned by
`generatorFromExamples` in src/src/dataset.ts: `examples.slice()`, a
shallow copy of the backing array, ignoring `numSamples` and `noise`. -/
def generatorFromExamplesCall (s : Store) (backing : ℕ)
    (numSamples : ℕ) (noise : ℚ) : Store × ℕ :=
  allocArray s (readArray s backing)

/-- Mutation of the point object at address `r`. -/
def writePoint (s : Store) (r : ℕ) (p : Example2D) : Store :=
  { s with points := s.points.set r p }

/-- Mutation of one slot of the array object at address `a`. -/
def writeArrayElem (s : Store) (a i r : ℕ) : Store :=
  { s with arrays := s.arrays.set a ((readArray s a).set i r) }

/-- A one-point backing store: the array at address 0 holds the single
point at address 0, with value `⟨0, 0, 0⟩`. -/
def cexStore : Store :=
  { arrays := [[0]], points := [{ x := 0, y := 0, label := 0 }] }

/-- The degenerate normal sampler returning 0 on every call, used to
evaluate the embedding at concrete inputs. -/
def nrmZero : ℕ → ℚ → ℚ → ℚ :=
  fun _ _ _ => 0

/-- The random stream returning `23/24` on every draw, so that
`randUniform (-6) 6` yields `11/2`. -/
def planeRnd : ℕ → ℚ :=
  fun _ => 23/24

/-- The random stream returning `1/2` on every draw. -/
def halfStream : ℕ → ℚ :=
  fun _ => 1/2

/-- The degenerate square-root stand-in returning 0 everywhere. -/
def sqZero : ℚ → ℚ :=
  fun _ => 0

/-- A condition-valued label `cond ? 1 : -1` is always `-1` or `1`. -/
theorem ite_pm_one (c : Prop) [Decidable c] :
    (if c then (1 : ℚ) else -1) = -1 ∨ (if c then (1 : ℚ) else -1) = 1 := by
  split
  · right
    rfl
  · left
    rfl

/-- Justification of `halfCount`: a natural `i` satisfies the JavaScript
loop guard `i < numSamples / 2` (real division) exactly when
`i < halfCount numSamples`. -/
theorem halfCount_spec (n i : ℕ) :
    ((i : ℚ) < (n : ℚ) / 2) ↔ i < halfCount n := by
  unfold halfCount
  rw [lt_div_iff₀ (by norm_num : (0 : ℚ) < 2)]
  constructor
  · intro h
    have h2 : i * 2 < n := by exact_mod_cast h
    omega
  · intro h
    have h2 : i * 2 < n := by omega
    exact_mod_cast h2

/-- C4: the rejection loop of `normalRandom` accepts the pair drawn from
two `Math.random()` results of `0.5`: both coordinates are `0`, the
squared sum `s` is `0`, yet the loop's only test `s > 1` accepts it —
contradicting the requirement that only `0 < s ≤ 1` be accepted (the
source then evaluates `Math.log(0)`). -/
theorem normalRandom_accepts_s_zero :
    normalRandomAccept (mathRandomToV (1/2)) (mathRandomToV (1/2)) = true ∧
    normalRandomS (mathRandomToV (1/2)) (mathRandomToV (1/2)) = 0 := by
  constructor
  · norm_num [normalRandomAccept, normalRandomS, mathRandomToV]
  · norm_num [normalRandomS, mathRandomToV]

/-- C1 counterexample: at `numSamples = 1` the two-Gaussian generator
returns 2 points, not 1 (each of its two half-loops runs
`⌈numSamples / 2⌉` times), refuting the claim that every procedural
generator returns exactly `numSamples` points. -/
theorem twoGauss_length_odd_cex :
    (classifyTwoGaussData 1 0 nrmZero).length = 2 ∧ (2 : ℕ) ≠ 1 := by
  constructor
  · norm_num [classifyTwoGaussData, halfCount]
  · decide

/-- C1 (amended): the per-point generators return exactly `numSamples`
points; the paired generators (`classifyTwoGaussData`,
`classifySpiralData`, `classifyCircleData`) return `2 * ⌈numSamples / 2⌉`
points, which equals `numSamples` exactly when `numSamples` is even; the
dummy presets return their fixed counts 160, 160, 200 and 200 regardless
of `numSamples`. -/
theorem generator_lengths :
    (∀ (n : ℕ) (noise : ℚ) (rnd : ℕ → ℚ),
      (classifyXORData n noise rnd).length = n) ∧
    (∀ (n : ℕ) (noise : ℚ) (rnd : ℕ → ℚ),
      (regressPlane n noise rnd).length = n) ∧
    (∀ (n : ℕ) (noise : ℚ) (sq : ℚ → ℚ) (rnd : ℕ → ℚ),
      (regressGaussian n noise sq rnd).length = n) ∧
    (∀ (n : ℕ) (noise : ℚ) (nrm : ℕ → ℚ → ℚ → ℚ),
      (classifyTwoGaussData n noise nrm).length = 2 * halfCount n) ∧
    (∀ (n : ℕ) (noise : ℚ) (sinF cosF : ℚ → ℚ) (piQ : ℚ) (rnd : ℕ → ℚ),
      (classifySpiralData n noise sinF cosF piQ rnd).length = 2 * halfCount n) ∧
    (∀ (n : ℕ) (noise : ℚ) (sinF cosF : ℚ → ℚ) (piQ : ℚ) (sq : ℚ → ℚ)
      (rnd : ℕ → ℚ),
      (classifyCircleData n noise sinF cosF piQ sq rnd).length =
        2 * halfCount n) ∧
    (∀ n : ℕ, n % 2 = 0 → 2 * halfCount n = n) ∧
    (∀ (n : ℕ) (noise : ℚ) (nrm : ℕ → ℚ → ℚ → ℚ),
      (classifyCsvDummy1 n noise nrm).length = 160) ∧
    (∀ (n : ℕ) (noise : ℚ) (sinF cosF : ℚ → ℚ) (piQ : ℚ) (rnd : ℕ → ℚ),
      (classifyCsvDummy2 n noise sinF cosF piQ rnd).length = 160) ∧
    (∀ (n : ℕ) (noise : ℚ) (rnd : ℕ → ℚ),
      (regressCsvDummy1 n noise rnd).length = 200) ∧
    (∀ (n : ℕ) (noise : ℚ) (sq : ℚ → ℚ) (rnd : ℕ → ℚ),
      (regressCsvDummy2 n noise sq rnd).length = 200) := by
  refine ⟨?_, ?_, ?_, ?_, ?_, ?_, ?_, ?_, ?_, ?_, ?_⟩
  · intro n noise rnd
    simp [classifyXORData]
  · intro n noise rnd
    simp [regressPlane]
  · intro n noise sq rnd
    simp [regressGaussian]
  · intro n noise nrm
    simp [classifyTwoGaussData]
    ring
  · intro n noise sinF cosF piQ rnd
    simp [classifySpiralData]
    ring
  · intro n noise sinF cosF piQ sq rnd
    simp [classifyCircleData]
    ring
  · intro n hn
    unfold halfCount
    omega
  · intro n noise nrm
    simp [classifyCsvDummy1]
  · intro n noise sinF cosF piQ rnd
    simp [classifyCsvDummy2]
  · intro n noise rnd
    simp [regressCsvDummy1]
  · intro n noise sq rnd
    simp [regressCsvDummy2]

/-- C8: every label produced by a classification generator
(`classifyTwoGaussData`, `classifySpiralData`, `classifyCircleData`,
`classifyXORData`, `classifyCsvDummy1`, `classifyCsvDummy2`) is exactly
`-1` or exactly `1`, for every sample count, noise level, random stream
and stand-in for the transcendental library functions. -/
theorem classify_labels_pm_one :
    (∀ (n : ℕ) (noise : ℚ) (nrm : ℕ → ℚ → ℚ → ℚ),
      ∀ p ∈ classifyTwoGaussData n noise nrm, p.label = -1 ∨ p.label = 1) ∧
    (∀ (n : ℕ) (noise : ℚ) (sinF cosF : ℚ → ℚ) (piQ : ℚ) (rnd : ℕ → ℚ),
      ∀ p ∈ classifySpiralData n noise sinF cosF piQ rnd,
        p.label = -1 ∨ p.label = 1) ∧
    (∀ (n : ℕ) (noise : ℚ) (sinF cosF : ℚ → ℚ) (piQ : ℚ) (sq : ℚ → ℚ)
      (rnd : ℕ → ℚ),
      ∀ p ∈ classifyCircleData n noise sinF cosF piQ sq rnd,
        p.label = -1 ∨ p.label = 1) ∧
    (∀ (n : ℕ) (noise : ℚ) (rnd : ℕ → ℚ),
      ∀ p ∈ classifyXORData n noise rnd, p.label = -1 ∨ p.label = 1) ∧
    (∀ (n : ℕ) (noise : ℚ) (nrm : ℕ → ℚ → ℚ → ℚ),
      ∀ p ∈ classifyCsvDummy1 n noise nrm, p.label = -1 ∨ p.label = 1) ∧
    (∀ (n : ℕ) (noise : ℚ) (sinF cosF : ℚ → ℚ) (piQ : ℚ) (rnd : ℕ → ℚ),
      ∀ p ∈ classifyCsvDummy2 n noise sinF cosF piQ rnd,
        p.label = -1 ∨ p.label = 1) := by
  refine ⟨?_, ?_, ?_, ?_, ?_, ?_⟩
  · intro n noise nrm p hp
    simp only [classifyTwoGaussData, List.mem_append, List.mem_map,
      List.mem_range] at hp
    rcases hp with ⟨i, _, rfl⟩ | ⟨i, _, rfl⟩
    · right
      rfl
    · left
      rfl
  · intro n noise sinF cosF piQ rnd p hp
    simp only [classifySpiralData, List.mem_append, List.mem_map,
      List.mem_range] at hp
    rcases hp with ⟨i, _, rfl⟩ | ⟨i, _, rfl⟩
    · right
      rfl
    · left
      rfl
  · intro n noise sinF cosF piQ sq rnd p hp
    simp only [classifyCircleData, List.mem_append, List.mem_map,
      List.mem_range] at hp
    rcases hp with ⟨i, _, rfl⟩ | ⟨i, _, rfl⟩ <;> exact ite_pm_one _
  · intro n noise rnd p hp
    simp only [classifyXORData, List.mem_map, List.mem_range] at hp
    rcases hp with ⟨i, _, rfl⟩
    exact ite_pm_one _
  · intro n noise nrm p hp
    simp only [classifyCsvDummy1, List.mem_append, List.mem_map,
      List.mem_range] at hp
    rcases hp with ⟨i, _, rfl⟩ | ⟨i, _, rfl⟩
    · right
      rfl
    · left
      rfl
  · intro n noise sinF cosF piQ rnd p hp
    simp only [classifyCsvDummy2, List.mem_map, List.mem_range] at hp
    rcases hp with ⟨i, _, rfl⟩
    exact ite_pm_one _

/-- A d3 linear scale with domain starting at 0, range `[1, 0]` and
clamping enabled produces values in `[0, 1]` at every input. -/
theorem linearScaleClamp_one_zero_bounds (d1 v : ℚ) :
    0 ≤ linearScaleClamp 0 d1 1 0 v ∧ linearScaleClamp 0 d1 1 0 v ≤ 1 := by
  have h0 : 0 ≤ max 0 (min 1 ((v - 0) / (d1 - 0))) := le_max_left _ _
  have h1 : max 0 (min 1 ((v - 0) / (d1 - 0))) ≤ 1 := by
    apply max_le
    · norm_num
    · exact min_le_left _ _
  constructor
  · show 0 ≤ 1 + (max 0 (min 1 ((v - 0) / (d1 - 0)))) * (0 - 1)
    nlinarith
  · show 1 + (max 0 (min 1 ((v - 0) / (d1 - 0)))) * (0 - 1) ≤ 1
    nlinarith

/-- The strict-max-abs fold either keeps its initial accumulator (when no
element strictly exceeds it in absolute value) or returns the first
element of maximal absolute value among those exceeding it: every element
is bounded by the result, and every earlier element is strictly below
it. -/
theorem foldl_selectMaxAbs_spec (l : List ℚ) (a : ℚ) :
    (l.foldl selectMaxAbs a = a ∧ ∀ b ∈ l, |b| ≤ |a|) ∨
    (∃ i : Fin l.length, l.foldl selectMaxAbs a = l.get i ∧
      |a| < |l.get i| ∧ (∀ b ∈ l, |b| ≤ |l.get i|) ∧
      ∀ j : Fin l.length, (j : ℕ) < (i : ℕ) → |l.get j| < |l.get i|) := by
  induction l generalizing a with
  | nil =>
    exact Or.inl ⟨rfl, by simp⟩
  | cons x xs ih =>
    simp only [List.foldl_cons]
    by_cases hx : |x| > |a|
    · have hsel : selectMaxAbs a x = x := if_pos hx
      rw [hsel]
      rcases ih x with ⟨heq, hall⟩ | ⟨i, heq, hlt, hall, hfirst⟩
      · refine Or.inr ⟨⟨0, by simp⟩, ?_, ?_, ?_, ?_⟩
        · simpa using heq
        · simpa using hx
        · intro b hb
          rcases List.mem_cons.mp hb with rfl | hb
          · simp
          · simpa using hall b hb
        · intro j hj
          exact absurd hj (Nat.not_lt_zero _)
      · refine Or.inr ⟨i.succ, ?_, ?_, ?_, ?_⟩
        · simpa using heq
        · have h2 : |a| < |xs.get i| := lt_trans hx hlt
          simpa using h2
        · intro b hb
          rcases List.mem_cons.mp hb with rfl | hb
          · have h2 : |b| ≤ |xs.get i| := le_of_lt hlt
            simpa using h2
          · simpa using hall b hb
        · intro j hj
          rcases j with ⟨jv, hjlt⟩
          cases jv with
          | zero =>
            simpa using hlt
          | succ k =>
            have hk : k < (i : ℕ) := by
              simpa using hj
            simpa using hfirst ⟨k, by omega⟩ hk
    · have hsel : selectMaxAbs a x = a := if_neg hx
      rw [hsel]
      rcases ih a with ⟨heq, hall⟩ | ⟨i, heq, hlt, hall, hfirst⟩
      · refine Or.inl ⟨heq, ?_⟩
        intro b hb
        rcases List.mem_cons.mp hb with rfl | hb
        · exact not_lt.mp hx
        · exact hall b hb
      · refine Or.inr ⟨i.succ, ?_, ?_, ?_, ?_⟩
        · simpa using heq
        · simpa using hlt
        · intro b hb
          rcases List.mem_cons.mp hb with rfl | hb
          · have h2 : |b| ≤ |xs.get i| :=
              le_of_lt (lt_of_le_of_lt (not_lt.mp hx) hlt)
            simpa using h2
          · simpa using hall b hb
        · intro j hj
          rcases j with ⟨jv, hjlt⟩
          cases jv with
          | zero =>
            have h2 : |x| < |xs.get i| := lt_of_le_of_lt (not_lt.mp hx) hlt
            simpa using h2
          | succ k =>
            have hk : k < (i : ℕ) := by
              simpa using hj
            simpa using hfirst ⟨k, by omega⟩ hk

/-- Each bump value of `regressGaussian`'s `getLabel` lies in `[-1, 1]`:
the clamped scale lies in `[0, 1]` and each center's sign is `1` or
`-1`. -/
theorem gaussBumps_bounds (sq : ℚ → ℚ) (x y : ℚ) :
    ∀ b ∈ gaussBumps sq x y, -1 ≤ b ∧ b ≤ 1 := by
  intro b hb
  simp only [gaussBumps, List.mem_map] at hb
  obtain ⟨c, hc, rfl⟩ := hb
  have hL := linearScaleClamp_one_zero_bounds 2 (dist sq x y c.1 c.2.1)
  unfold regressGaussLabelScale
  fin_cases hc <;> constructor <;> nlinarith [hL.1, hL.2]

/-- C7: at every point, `regressGaussian`'s label equals the bump value
of maximal absolute magnitude among the six fixed centers: every bump is
bounded by it in absolute value, and every strictly earlier bump in
center order is strictly smaller in absolute value (a tie keeps the
earlier bump, since the fold replaces only on strict comparison). -/
theorem regressGauss_label_first_max_abs (sq : ℚ → ℚ) (x y : ℚ) :
    (gaussBumps sq x y).length = 6 ∧
    ∃ i : Fin (gaussBumps sq x y).length,
      regressGaussGetLabel sq x y = (gaussBumps sq x y).get i ∧
      (∀ j : Fin (gaussBumps sq x y).length,
        |(gaussBumps sq x y).get j| ≤ |(gaussBumps sq x y).get i|) ∧
      ∀ j : Fin (gaussBumps sq x y).length,
        (j : ℕ) < (i : ℕ) →
          |(gaussBumps sq x y).get j| < |(gaussBumps sq x y).get i| := by
  have hlen : (gaussBumps sq x y).length = 6 := by
    simp [gaussBumps, gaussians]
  refine ⟨hlen, ?_⟩
  rcases foldl_selectMaxAbs_spec (gaussBumps sq x y) 0 with
    ⟨heq, hall⟩ | ⟨i, heq, _, hall, hfirst⟩
  · have hpos : 0 < (gaussBumps sq x y).length := by omega
    refine ⟨⟨0, hpos⟩, ?_, ?_, ?_⟩
    · have h0 : |(gaussBumps sq x y).get ⟨0, hpos⟩| ≤ |(0 : ℚ)| :=
        hall _ (List.get_mem _ _ _)
      have h0' : (gaussBumps sq x y).get ⟨0, hpos⟩ = 0 := by
        rw [abs_zero] at h0
        exact abs_nonpos_iff.mp h0
      rw [regressGaussGetLabel, heq, h0']
    · intro j
      have hj : |(gaussBumps sq x y).get j| ≤ |(0 : ℚ)| :=
        hall _ (List.get_mem _ _ _)
      have h0 : |(gaussBumps sq x y).get ⟨0, hpos⟩| ≤ |(0 : ℚ)| :=
        hall _ (List.get_mem _ _ _)
      rw [abs_zero] at hj h0
      have h0' : |(gaussBumps sq x y).get ⟨0, hpos⟩| = 0 :=
        le_antisymm h0 (abs_nonneg _)
      rw [h0']
      exact hj
    · intro j hj
      exact absurd hj (Nat.not_lt_zero _)
  · exact ⟨i, heq, fun j => hall _ (List.get_mem _ _ _), hfirst⟩

/-- The label of `regressGaussian` lies in `[-1, 1]` at every point: the
fold starts at `0` and only ever adopts a bump value, and every bump
value lies in `[-1, 1]`. -/
theorem regressGaussGetLabel_bounds (sq : ℚ → ℚ) (x y : ℚ) :
    -1 ≤ regressGaussGetLabel sq x y ∧ regressGaussGetLabel sq x y ≤ 1 := by
  rcases foldl_selectMaxAbs_spec (gaussBumps sq x y) 0 with
    ⟨heq, _⟩ | ⟨j, heq, _, _, _⟩
  · unfold regressGaussGetLabel
    rw [heq]
    norm_num
  · unfold regressGaussGetLabel
    rw [heq]
    exact gaussBumps_bounds sq x y _ (List.get_mem _ _ _)

/-- C2 counterexample: with `noise = 0` and every draw `23/24`,
`regressPlane 1` returns the single point `(11/2, 11/2)` with label
`11/10`, which exceeds `1`: the plane label scale is not clamped, so
labels leave `[-1, 1]`. -/
theorem regressPlane_label_exceeds_one_cex :
    regressPlane 1 0 planeRnd = [{ x := 11/2, y := 11/2, label := 11/10 }] ∧
    ¬ ((11 : ℚ)/10 ≤ 1) := by
  constructor
  · norm_num [regressPlane, planeRnd, randUniform, linearScale, List.range_succ]
  · norm_num

/-- C2 (amended): every `regressGaussian` label lies in `[-1, 1]` (for
every sample count, noise, square root stand-in and stream), while a
`regressPlane` label is only guaranteed to lie in `[-6/5, 6/5)` at
`noise = 0` (for streams within `Math.random()`'s range `[0, 1)`), and
can exceed `1`. -/
theorem regress_label_bounds :
    (∀ (n : ℕ) (noise : ℚ) (sq : ℚ → ℚ) (rnd : ℕ → ℚ),
      ∀ p ∈ regressGaussian n noise sq rnd, -1 ≤ p.label ∧ p.label ≤ 1) ∧
    (∀ (n : ℕ) (rnd : ℕ → ℚ), (∀ k, 0 ≤ rnd k ∧ rnd k < 1) →
      ∀ p ∈ regressPlane n 0 rnd, -6/5 ≤ p.label ∧ p.label < 6/5) := by
  constructor
  · intro n noise sq rnd p hp
    simp only [regressGaussian, List.mem_map, List.mem_range] at hp
    obtain ⟨i, _, rfl⟩ := hp
    dsimp only
    exact regressGaussGetLabel_bounds sq _ _
  · intro n rnd hrnd p hp
    simp only [regressPlane, List.mem_map, List.mem_range] at hp
    obtain ⟨i, _, rfl⟩ := hp
    obtain ⟨h0a, h0b⟩ := hrnd (4*i)
    obtain ⟨h1a, h1b⟩ := hrnd (4*i+1)
    dsimp only
    unfold linearScale randUniform
    constructor <;> nlinarith

/-- C10: in `classifyXORData`, the label is `1` exactly when the product
of the noise-adjusted coordinates is nonnegative — in particular a
product of exactly zero is labelled `1`, not `-1` — and the stored
coordinates of the `i`-th point are the padded noise-free draws while
the label is computed from the noisy ones. -/
theorem xor_boundary_and_coords :
    (∀ px py : ℚ, px * py = 0 → getXORLabel px py = 1) ∧
    (∀ px py : ℚ, getXORLabel px py = 1 ↔ 0 ≤ px * py) ∧
    (∀ (n : ℕ) (noise : ℚ) (rnd : ℕ → ℚ) (i : ℕ), i < n →
      (classifyXORData n noise rnd).getD i default =
        { x := addPadding (randUniform (-5) 5 (rnd (4*i))),
          y := addPadding (randUniform (-5) 5 (rnd (4*i+1))),
          label := getXORLabel
            (addPadding (randUniform (-5) 5 (rnd (4*i))) +
              randUniform (-5) 5 (rnd (4*i+2)) * noise)
            (addPadding (randUniform (-5) 5 (rnd (4*i+1))) +
              randUniform (-5) 5 (rnd (4*i+3)) * noise) }) := by
  refine ⟨?_, ?_, ?_⟩
  · intro px py h
    unfold getXORLabel
    rw [h]
    norm_num
  · intro px py
    unfold getXORLabel
    split
    · rename_i h
      exact iff_of_true rfl h
    · rename_i h
      refine iff_of_false ?_ h
      norm_num
  · intro n noise rnd i hi
    have hlen : i < (classifyXORData n noise rnd).length := by
      simp [classifyXORData, hi]
    rw [List.getD_eq_getElem _ _ hlen]
    simp [classifyXORData]

/-- Setting one position of a list changes the multiset of elements by
removing the old element and adding the new one: counts balance as an
equation. -/
theorem count_set_add {α : Type} [DecidableEq α] (l : List α) (i : ℕ)
    (hi : i < l.length) (a x : α) :
    (l.set i a).count x + (if l[i] = x then 1 else 0) =
      l.count x + (if a = x then 1 else 0) := by
  induction l generalizing i with
  | nil =>
    simp at hi
  | cons h t ih =>
    cases i with
    | zero =>
      simp only [List.set_cons_zero, List.count_cons, List.getElem_cons_zero,
        beq_iff_eq]
      split_ifs <;> omega
    | succ k =>
      have hk : k < t.length := by
        simpa using hi
      simp only [List.set_cons_succ, List.count_cons, List.getElem_cons_succ,
        beq_iff_eq]
      have h2 := ih k hk
      split_ifs at h2 ⊢ <;> omega

/-- The swap performed by one `shuffle` iteration
(`temp = a[i]; a[i] = a[j]; a[j] = temp`) permutes the list. -/
theorem swap_set_perm {α : Type} (l : List α) (i j : ℕ)
    (hi : i < l.length) (hj : j < l.length) :
    ((l.set i l[j]).set j l[i]).Perm l := by
  classical
  rw [List.perm_iff_count]
  intro x
  have hj2 : j < (l.set i l[j]).length := by
    simpa using hj
  have h1 := count_set_add l i hi (l[j]) x
  have h2 := count_set_add (l.set i l[j]) j hj2 (l[i]) x
  rcases eq_or_ne i j with rfl | hne
  · have hg : (l.set i l[i])[i] = l[i] := List.getElem_set_self hj2
    rw [hg] at h2
    split_ifs at h1 h2 <;> omega
  · have hg : (l.set i l[j])[j] = l[j] := List.getElem_set_ne hne _
    rw [hg] at h2
    split_ifs at h1 h2 <;> omega

/-- The random index drawn by a `shuffle` iteration with counter `c + 1`
stays at or below `c` whenever the draw lies in `[0, 1)`. -/
theorem jsFloorNat_le (q : ℚ) (c : ℕ) (h0 : 0 ≤ q) (h1 : q < 1) :
    jsFloorNat (q * ((c : ℚ) + 1)) ≤ c := by
  unfold jsFloorNat
  have hlt : ⌊q * ((c : ℚ) + 1)⌋ < (c : ℤ) + 1 := by
    apply Int.floor_lt.mpr
    push_cast
    nlinarith
  omega

/-- The shuffle loop permutes its array whenever the counter is within
bounds and the stream stays in `Math.random()`'s range `[0, 1)`. -/
theorem shuffleGo_perm {α : Type} [Inhabited α] (rnd : ℕ → ℚ)
    (hrnd : ∀ k, 0 ≤ rnd k ∧ rnd k < 1) :
    ∀ (c : ℕ) (a : List α), c ≤ a.length → (shuffleGo rnd c a).Perm a := by
  intro c
  induction c with
  | zero =>
    intro a _
    simp [shuffleGo]
  | succ c ih =>
    intro a hca
    obtain ⟨h0, h1⟩ := hrnd c
    have hidx : jsFloorNat (rnd c * ((c : ℚ) + 1)) ≤ c :=
      jsFloorNat_le _ _ h0 h1
    have hc : c < a.length := by omega
    have hi : jsFloorNat (rnd c * ((c : ℚ) + 1)) < a.length := by omega
    have hswap :
        ((a.set c (a.getD (jsFloorNat (rnd c * ((c : ℚ) + 1))) default)).set
          (jsFloorNat (rnd c * ((c : ℚ) + 1))) (a.getD c default)).Perm a := by
      rw [List.getD_eq_getElem _ _ hi, List.getD_eq_getElem _ _ hc]
      exact swap_set_perm a c (jsFloorNat (rnd c * ((c : ℚ) + 1))) hc hi
    have hlen2 : c ≤
        ((a.set c (a.getD (jsFloorNat (rnd c * ((c : ℚ) + 1))) default)).set
          (jsFloorNat (rnd c * ((c : ℚ) + 1))) (a.getD c default)).length := by
      simp only [List.length_set]
      omega
    simp only [shuffleGo]
    exact (ih _ hlen2).trans hswap

/-- C6: for every finite array and every random stream within
`Math.random()`'s range, `shuffle` (whose loop runs once per position,
by recursion on the counter) preserves the length and returns a
permutation of the input: the same elements with the same
multiplicities. -/
theorem shuffle_length_perm {α : Type} [Inhabited α] (rnd : ℕ → ℚ)
    (hrnd : ∀ k, 0 ≤ rnd k ∧ rnd k < 1) (a : List α) :
    (shuffle rnd a).length = a.length ∧ (shuffle rnd a).Perm a := by
  have hp : (shuffle rnd a).Perm a := shuffleGo_perm rnd hrnd a.length a le_rfl
  exact ⟨hp.length_eq, hp⟩

/-- C6 witness: `shuffle` with the constant draw `1/2` on `[1, 2, 3]`
keeps length 3 and yields a permutation. -/
theorem shuffle_length_perm_witness :
    (shuffle halfStream ([1, 2, 3] : List ℕ)).length =
      ([1, 2, 3] : List ℕ).length ∧
    (shuffle halfStream ([1, 2, 3] : List ℕ)).Perm [1, 2, 3] :=
  shuffle_length_perm halfStream
    (fun _ => ⟨by norm_num [halfStream], by norm_num [halfStream]⟩) [1, 2, 3]

/-- Folding the push-if-accepted step over rows (the `forEach` of the
CSV importer) collects exactly the accepted rows, in order: it is
`List.filterMap` of the row step. -/
theorem foldl_push_eq_filterMap (f : CsvRow → Option Example2D) :
    ∀ (rows : List CsvRow) (acc : List Example2D),
      rows.foldl (fun out row =>
          match f row with
          | some e => out ++ [e]
          | none => out) acc = acc ++ rows.filterMap f := by
  intro rows
  induction rows with
  | nil =>
    intro acc
    simp
  | cons r rs ih =>
    intro acc
    simp only [List.foldl_cons, List.filterMap_cons]
    cases hf : f r with
    | none =>
      simp only [hf]
      exact ih acc
    | some e =>
      simp only [hf]
      rw [ih]
      simp

/-- The row loop of the CSV importer equals `filterMap` of the row
step. -/
theorem processRows_eq_filterMap (isRegression : Bool) (rows : List CsvRow) :
    processRows isRegression rows = rows.filterMap (rowToExample isRegression) := by
  unfold processRows
  simpa using foldl_push_eq_filterMap (rowToExample isRegression) rows []

/-- C3: a parsed row contributes an example exactly when `x`, `y` and the
value field (`values` before `value`) all coerce to numbers, the label
being the raw value for regression and the `≤ 0` threshold into
`{-1, 1}` otherwise; an example is in the importer's output exactly when
some parsed row yields it; and on the spec's end-to-end text the
classification import yields exactly `(1, 2, 1)` and `(3, 4, -1)`. -/
theorem parseCsv_row_filter_spec :
    (∀ (isRegression : Bool) (row : CsvRow) (e : Example2D),
      rowToExample isRegression row = some e ↔
        ∃ a b v, csvX row = some a ∧ csvY row = some b ∧ csvV row = some v ∧
          e = { x := a, y := b,
                label := if isRegression then v else if v ≤ 0 then -1 else 1 }) ∧
    (∀ (text : String) (isRegression : Bool) (e : Example2D),
      e ∈ parseCsvTextToExamples text isRegression ↔
        ∃ row ∈ d3CsvParse text, rowToExample isRegression row = some e) ∧
    parseCsvTextToExamples csvExampleText false =
      [{ x := 1, y := 2, label := 1 }, { x := 3, y := 4, label := -1 }] := by
  refine ⟨?_, ?_, ?_⟩
  · intro isRegression row e
    unfold rowToExample
    cases hx : csvX row <;> cases hy : csvY row <;> cases hv : csvV row <;>
      simp [hx, hy, hv, eq_comm]
  · intro text isRegression e
    unfold parseCsvTextToExamples d3CsvParseE parseCsvCaught
    show e ∈ processRows isRegression (d3CsvParse text) ↔
      ∃ row ∈ d3CsvParse text, rowToExample isRegression row = some e
    rw [processRows_eq_filterMap]
    exact List.mem_filterMap
  · have hp : d3CsvParse csvExampleText = csvExampleRows := by
      decide
    have c0 : ('0').toNat = 48 := by decide
    have c1 : ('1').toNat = 49 := by decide
    have c2 : ('2').toNat = 50 := by decide
    have c3 : ('3').toNat = 51 := by decide
    have c4 : ('4').toNat = 52 := by decide
    have c5 : ('5').toNat = 53 := by decide
    have px1 : jsParseFloat "1".toList = some 1 := by
      norm_num +decide [jsParseFloat, parseDigits, scaleByPowTen, c1]
    have px2 : jsParseFloat "2".toList = some 2 := by
      norm_num +decide [jsParseFloat, parseDigits, scaleByPowTen, c2]
    have px3 : jsParseFloat "3".toList = some 3 := by
      norm_num +decide [jsParseFloat, parseDigits, scaleByPowTen, c3]
    have px4 : jsParseFloat "4".toList = some 4 := by
      norm_num +decide [jsParseFloat, parseDigits, scaleByPowTen, c4]
    have phalf : jsParseFloat "0.5".toList = some (1/2) := by
      norm_num +decide [jsParseFloat, parseDigits, scaleByPowTen, c0, c5]
    have pneg : jsParseFloat "-0.2".toList = some (-1/5) := by
      norm_num +decide [jsParseFloat, parseDigits, scaleByPowTen, c0, c2]
    have pbad : jsParseFloat "bad".toList = none := by
      norm_num +decide [jsParseFloat, parseDigits, scaleByPowTen]
    have h1 : rowToExample false
        [("x".toList, "1".toList), ("y".toList, "2".toList),
         ("values".toList, "0.5".toList)] =
        some { x := 1, y := 2, label := 1 } := by
      have lx : csvX [("x".toList, "1".toList), ("y".toList, "2".toList),
          ("values".toList, "0.5".toList)] = some 1 := by
        unfold csvX
        rw [show List.lookup "x".toList
            [("x".toList, "1".toList), ("y".toList, "2".toList),
             ("values".toList, "0.5".toList)] = some "1".toList from by decide]
        exact px1
      have ly : csvY [("x".toList, "1".toList), ("y".toList, "2".toList),
          ("values".toList, "0.5".toList)] = some 2 := by
        unfold csvY
        rw [show List.lookup "y".toList
            [("x".toList, "1".toList), ("y".toList, "2".toList),
             ("values".toList, "0.5".toList)] = some "2".toList from by decide]
        exact px2
      have lv : csvV [("x".toList, "1".toList), ("y".toList, "2".toList),
          ("values".toList, "0.5".toList)] = some (1/2) := by
        unfold csvV csvValueField
        rw [show List.lookup "values".toList
            [("x".toList, "1".toList), ("y".toList, "2".toList),
             ("values".toList, "0.5".toList)] = some "0.5".toList from by decide]
        exact phalf
      unfold rowToExample
      rw [lx, ly, lv]
      norm_num
    have h2 : rowToExample false
        [("x".toList, "3".toList), ("y".toList, "4".toList),
         ("values".toList, "-0.2".toList)] =
        some { x := 3, y := 4, label := -1 } := by
      have lx : csvX [("x".toList, "3".toList), ("y".toList, "4".toList),
          ("values".toList, "-0.2".toList)] = some 3 := by
        unfold csvX
        rw [show List.lookup "x".toList
            [("x".toList, "3".toList), ("y".toList, "4".toList),
             ("values".toList, "-0.2".toList)] = some "3".toList from by decide]
        exact px3
      have ly : csvY [("x".toList, "3".toList), ("y".toList, "4".toList),
          ("values".toList, "-0.2".toList)] = some 4 := by
        unfold csvY
        rw [show List.lookup "y".toList
            [("x".toList, "3".toList), ("y".toList, "4".toList),
             ("values".toList, "-0.2".toList)] = some "4".toList from by decide]
        exact px4
      have lv : csvV [("x".toList, "3".toList), ("y".toList, "4".toList),
          ("values".toList, "-0.2".toList)] = some (-1/5) := by
        unfold csvV csvValueField
        rw [show List.lookup "values".toList
            [("x".toList, "3".toList), ("y".toList, "4".toList),
             ("values".toList, "-0.2".toList)] = some "-0.2".toList from by decide]
        exact pneg
      unfold rowToExample
      rw [lx, ly, lv]
      norm_num
    have h3 : rowToExample false
        [("x".toList, "bad".toList), ("y".toList, "4".toList),
         ("values".toList, "1".toList)] = none := by
      have lx : csvX [("x".toList, "bad".toList), ("y".toList, "4".toList),
          ("values".toList, "1".toList)] = none := by
        unfold csvX
        rw [show List.lookup "x".toList
            [("x".toList, "bad".toList), ("y".toList, "4".toList),
             ("values".toList, "1".toList)] = some "bad".toList from by decide]
        exact pbad
      unfold rowToExample
      rw [lx]
    unfold parseCsvTextToExamples d3CsvParseE parseCsvCaught
    show processRows false (d3CsvParse csvExampleText) = _
    rw [hp, processRows_eq_filterMap]
    unfold csvExampleRows
    rw [List.filterMap_cons, List.filterMap_cons, List.filterMap_cons]
    rw [h1, h2, h3]
    rfl

/-- C9: the importer's `catch` converts a structural parse failure into
the empty collection — an error outcome of the guarded parse step yields
`[]`, never a propagated exception — and the importer is the catch
wrapper applied to the guarded parse of the input text. -/
theorem parseCsv_error_to_empty :
    (∀ (e : String) (isRegression : Bool),
      parseCsvCaught (Except.error e) isRegression = []) ∧
    (∀ (text : String) (isRegression : Bool),
      parseCsvTextToExamples text isRegression =
        parseCsvCaught (d3CsvParseE text) isRegression) :=
  ⟨fun _ _ => rfl, fun _ _ => rfl⟩

/-- Reading a freshly appended element of a list: the slot at the old
length holds the new element. -/
theorem getD_snoc_self {β : Type} (l : List β) (x d : β) :
    (l ++ [x]).getD l.length d = x := by
  rw [List.getD_eq_getElem _ _ (by simp)]
  simp

/-- Reading below the old length is unchanged by appending. -/
theorem getD_snoc_lt {β : Type} (l : List β) (x d : β) (i : ℕ)
    (h : i < l.length) :
    (l ++ [x]).getD i d = l.getD i d := by
  rw [List.getD_eq_getElem _ _ (by simp; omega), List.getD_eq_getElem _ _ h]
  exact List.getElem_append_left _

/-- Reading a slot other than the one being set is unchanged. -/
theorem getD_set_ne {β : Type} (l : List β) (i j : ℕ) (a d : β)
    (hij : i ≠ j) :
    (l.set i a).getD j d = l.getD j d := by
  by_cases hj : j < l.length
  · rw [List.getD_eq_getElem _ _ (by simpa using hj), List.getD_eq_getElem _ _ hj]
    exact List.getElem_set_ne hij _
  · rw [List.getD_eq_default _ _ (by simpa using not_lt.mp hj),
      List.getD_eq_default _ _ (not_lt.mp hj)]

/-- C5 (amended): each invocation of the adapter built by
`generatorFromExamples` ignores its `numSamples` and `noise` arguments
and allocates a fresh array object — distinct from the backing array,
equal to it in observed point values, and such that mutating the fresh
array's slots leaves the backing array's view unchanged.  (The point
objects themselves are shared: see the counterexample.) -/
theorem generatorFromExamples_fresh_array (s : Store) (backing n : ℕ)
    (noise : ℚ) (hb : backing < s.arrays.length) :
    (generatorFromExamplesCall s backing n noise).2 ≠ backing ∧
    viewArray (generatorFromExamplesCall s backing n noise).1
        (generatorFromExamplesCall s backing n noise).2 =
      viewArray (generatorFromExamplesCall s backing n noise).1 backing ∧
    viewArray (generatorFromExamplesCall s backing n noise).1 backing =
      viewArray s backing ∧
    (∀ i r : ℕ,
      viewArray (writeArrayElem (generatorFromExamplesCall s backing n noise).1
          (generatorFromExamplesCall s backing n noise).2 i r) backing =
        viewArray (generatorFromExamplesCall s backing n noise).1 backing) ∧
    (∀ (n2 : ℕ) (noise2 : ℚ),
      generatorFromExamplesCall s backing n2 noise2 =
        generatorFromExamplesCall s backing n noise) := by
  refine ⟨?_, ?_, ?_, ?_, ?_⟩
  · show s.arrays.length ≠ backing
    omega
  · show viewArray _ s.arrays.length = viewArray _ backing
    unfold viewArray readArray generatorFromExamplesCall allocArray
    dsimp only
    rw [getD_snoc_self, getD_snoc_lt _ _ _ _ hb]
    rfl
  · unfold viewArray readArray readPoint generatorFromExamplesCall allocArray
    dsimp only
    rw [getD_snoc_lt _ _ _ _ hb]
  · intro i r
    show viewArray
        (writeArrayElem (generatorFromExamplesCall s backing n noise).1
          s.arrays.length i r) backing = _
    unfold viewArray readArray readPoint writeArrayElem
      generatorFromExamplesCall allocArray
    dsimp only
    rw [getD_set_ne _ _ _ _ _ (by omega)]
  · intro n2 noise2
    rfl

/-- C5 witness: on the one-point backing store, overwriting slot 0 of
the freshly returned copy leaves the view through the backing array
unchanged. -/
theorem generatorFromExamples_fresh_array_witness :
    viewArray (writeArrayElem (generatorFromExamplesCall cexStore 0 10 0).1
        (generatorFromExamplesCall cexStore 0 10 0).2 0 5) 0 =
      viewArray (generatorFromExamplesCall cexStore 0 10 0).1 0 :=
  (generatorFromExamples_fresh_array cexStore 0 10 0
    (by simp [cexStore])).2.2.2.1 0 5

/-- C5 counterexample: `slice()` is a shallow copy, so the point objects
are shared: writing the point reached through slot 0 of the returned
copy changes the value observed through the backing array from
`(0, 0, 0)` to `(5, 0, 0)` — the returned collection is not fully
independent of the backing one. -/
theorem slice_shares_points_cex :
    viewArray (writePoint (generatorFromExamplesCall cexStore 0 10 0).1
        ((readArray (generatorFromExamplesCall cexStore 0 10 0).1
          (generatorFromExamplesCall cexStore 0 10 0).2).getD 0 0)
        { x := 5, y := 0, label := 0 }) 0 =
      [{ x := 5, y := 0, label := 0 }] ∧
    viewArray cexStore 0 = [{ x := 0, y := 0, label := 0 }] ∧
    ([{ x := 5, y := 0, label := 0 }] : List Example2D) ≠
      [{ x := 0, y := 0, label := 0 }] := by
  refine ⟨?_, ?_, ?_⟩
  · norm_num [viewArray, readArray, readPoint, writePoint,
      generatorFromExamplesCall, allocArray, cexStore]
  · norm_num [viewArray, readArray, readPoint, cexStore]
  · intro h
    injection h with h2 h3
    have h4 : (5 : ℚ) = 0 := congrArg Example2D.x h2
    norm_num at h4

end Playground
